import Mathlib

/-!
# Verification of the `sectionlogger` package of Moonlight-Companies/gologger

This file gives a shallow embedding of the `sectionlogger` package (and the
parts of the `coloransi` package it uses) and proves the testable properties
of its specification against that embedding.

Modelling conventions:
* Strings are Lean `String`s; `len` in Go is byte length, which coincides with
  `String.length` for the ASCII data the logger manipulates.
* `time.Time` instants and `time.Duration` values are modelled as `Int`
  nanosecond counts; `Duration.Milliseconds()` is truncated division by 10^6
  (Go division truncates toward zero).
* The operations print via `fmt.Printf`/`fmt.Println`; each operation here
  returns the list of lines it prints alongside the updated state.
* `strings.Repeat` panics when its count is negative; fallible evaluation is
  modelled with `Option`, `none` standing for that panic.
* The mutex is irrelevant to the sequential functional behaviour; operations
  are modelled as sequential state transformers, with the caller supplying the
  `time.Now()` instants that the code reads.
-/

namespace Gologger

/-! ## coloransi: color codes and escape-sequence formatting (coloransi.go) -/

def Black : Nat := 30
def Cyan : Nat := 36
def BrightGreen : Nat := 92
def BrightWhite : Nat := 97
def BackgroundOffset : Nat := 10
def Bold : Nat := 1

/-- `coloransi.ColorCode.IsRGB`: the upper 24 bits hold an RGB triple. -/
def IsRGB (c : Nat) : Bool := c &&& 0xFFFFFF00 != 0

/-- `coloransi.Reset`. -/
def Reset : String := "\x1b[0m"

/-- `coloransi.OneForeground`. -/
def OneForeground (c : Nat) : String :=
  if IsRGB c then
    "\x1b[38;2;" ++ toString ((c >>> 24) &&& 0xFF) ++ ";" ++
      toString ((c >>> 16) &&& 0xFF) ++ ";" ++
      toString ((c >>> 8) &&& 0xFF) ++ "m"
  else
    "\x1b[" ++ toString c ++ "m"

/-- `coloransi.OneBackground`. -/
def OneBackground (c : Nat) : String :=
  if IsRGB c then
    "\x1b[48;2;" ++ toString ((c >>> 24) &&& 0xFF) ++ ";" ++
      toString ((c >>> 16) &&& 0xFF) ++ ";" ++
      toString ((c >>> 8) &&& 0xFF) ++ "m"
  else
    "\x1b[" ++ toString (c + BackgroundOffset) ++ "m"

/-- `coloransi.Foreground`, at the single-argument call sites used by the
section logger: foreground escape, the text, then the reset. -/
def Foreground (fg : Nat) (text : String) : String :=
  OneForeground fg ++ text ++ Reset

/-- Modelled from the spec: `ColorAndStyle` and the `TextStyle` codes are
declared in the repository's coloransi package, but the file defining them is
not among the provided sources (only the package's unit tests and callers
are).  Per the spec, `colorize(fg, bg, style, text)` wraps `text` in the
foreground escape, then the background escape, then the style escape (when a
style is set), followed by the universal reset; the package's unit tests pin
`ColorAndStyle(Red, Black, Bold, "Test")` to
`"\x1b[31m\x1b[40m\x1b[1mTest\x1b[0m"` and `Bold = 1`.  For style code 0 (the
"no style" default) no style escape is emitted; none of the theorems below
depends on that choice. -/
def ColorAndStyle (fg bg style : Nat) (text : String) : String :=
  OneForeground fg ++ OneBackground bg ++
    (if style = 0 then "" else "\x1b[" ++ toString style ++ "m") ++
    text ++ Reset

/-! ## Go string/format primitives used by sectionlogger -/

/-- Go `fmt.Sprintf("%-*s", w, s)`: pad `s` on the right with spaces to width
`w`; strings longer than `w` are not truncated. -/
def padRight (w : Nat) (s : String) : String :=
  s ++ String.mk (List.replicate (w - s.length) ' ')

/-- Go `strings.Repeat` of a single-glyph string, with the count as a Go
`int`: a negative count panics (`none`). -/
def goRepeat (c : Char) (n : Int) : Option String :=
  if n < 0 then none else some (String.mk (List.replicate n.toNat c))

/-- Go `time.Duration.Milliseconds()` on a nanosecond count: integer division
truncated toward zero. -/
def goMilliseconds (d : Int) : Int := Int.tdiv d 1000000

/-- Go `strings.ToUpper`: upper-case every character (`String.toUpper`, but
defined by structural recursion over the character list so that it is
kernel-evaluable). -/
def goToUpper (s : String) : String := String.mk (s.data.map Char.toUpper)

/-! ## Log entries (`logEntry`, `labelEntry`, `eventEntry`) -/

/-- The two implementations of the `logEntry` interface: `labelEntry` stores
`section`, `label` and `value`; `eventEntry` stores `section`, `value` and the
three instants `timestamp`, `startTime`, `prevTime`. -/
inductive LogEntry where
  | label (sec lab value : String)
  | event (sec value : String) (timestamp startTime prevTime : Int)
deriving DecidableEq, Repr

/-- `Width()`: the label length for a label entry, the fixed constant 13
("mmmmmm mmmmmm") for an event entry. -/
def LogEntry.Width : LogEntry → Nat
  | .label _ lab _ => lab.length
  | .event _ _ _ _ _ => 13

/-- `Section()`: a label entry returns its stored section verbatim (it was
upper-cased at insertion by `Add`); an event entry upper-cases its stored
section lazily. -/
def LogEntry.Section : LogEntry → String
  | .label s _ _ => s
  | .event s _ _ _ _ => goToUpper s

/-- `RenderLabel()`: the raw label, or `fmt.Sprintf("%-6d %-6d", sinceStart,
sincePrev)` with both deltas truncated to whole milliseconds. -/
def LogEntry.RenderLabel : LogEntry → String
  | .label _ lab _ => lab
  | .event _ _ ts st pv =>
      padRight 6 (toString (goMilliseconds (ts - st))) ++ " " ++
        padRight 6 (toString (goMilliseconds (ts - pv)))

/-- `RenderValue()`: the stored free-text payload. -/
def LogEntry.RenderValue : LogEntry → String
  | .label _ _ v => v
  | .event _ v _ _ _ => v

/-! ## The `SectionLogger` aggregate -/

/-- The `SectionLogger` struct.  The Go `prefix` field is called `pfx` here
(`prefix` is a reserved word in Lean). -/
structure SectionLogger where
  pfx : String
  entries : List LogEntry
  startTime : Int
  lastTime : Int
  width : Int
  borderFg : Nat
  borderBg : Nat
  borderStyle : Nat
  prefixFg : Nat
  prefixBg : Nat
  prefixStyle : Nat
  complete : Bool
deriving DecidableEq, Repr

/-- `New(prefix)`, with `now` the construction instant read from the clock. -/
def New (pfx : String) (now : Int) : SectionLogger :=
  { pfx := pfx
    entries := []
    startTime := now
    lastTime := now
    width := 80
    borderFg := Black
    borderBg := BrightGreen
    borderStyle := 0
    prefixFg := Black
    prefixBg := Cyan
    prefixStyle := 0
    complete := false }

/-- `SetWidth`. -/
def SetWidth (l : SectionLogger) (w : Int) : SectionLogger := { l with width := w }

/-- The colored prefix block `ColorAndStyle(l.prefixFg, l.prefixBg,
l.prefixStyle, l.prefix)` that starts every printed line. -/
def prefixBlock (l : SectionLogger) : String :=
  ColorAndStyle l.prefixFg l.prefixBg l.prefixStyle l.pfx

/-- `calculateMaxWidth`: the maximum `Width()` over all buffered entries
(0 for an empty buffer). -/
def calculateMaxWidth (l : SectionLogger) : Nat :=
  l.entries.foldl (fun m e => max m e.Width) 0

/-- One colored segment of a border line: the color/style arguments and the
text handed to `ColorAndStyle`.  The `text` components are exactly the visible
glyphs of the line. -/
structure BorderPart where
  fg : Nat
  bg : Nat
  style : Nat
  text : String
deriving DecidableEq, Repr

/-- `createBorderLine`, at the level of its `parts` list: the left corner
glyph, a fixed run of 4 `━`, then (for a non-empty label) the `┥`/`┝`
bracket pair around the space-padded label, then a run of
`width - 5 - (len(text) + 4)` (resp. `width - 5`) `━` fill glyphs, then the
`┅` cap.  A negative fill count makes `strings.Repeat` panic (`none`). -/
def createBorderParts (l : SectionLogger) (leftChar text : String) :
    Option (List BorderPart) :=
  let base : List BorderPart :=
    [⟨l.borderFg, l.borderBg, l.borderStyle, leftChar⟩,
     ⟨l.borderFg, l.borderBg, l.borderStyle, "━━━━"⟩]
  if text = "" then
    (goRepeat '━' (l.width - 5)).map (fun fill =>
      base ++ [⟨l.borderFg, l.borderBg, l.borderStyle, fill⟩,
               ⟨l.borderFg, l.borderBg, l.borderStyle, "┅"⟩])
  else
    (goRepeat '━' (l.width - 5 - (text.length + 4))).map (fun fill =>
      base ++ [⟨l.borderFg, l.borderBg, l.borderStyle, "┥"⟩,
               ⟨BrightWhite, Black, l.borderStyle ||| Bold, " " ++ text ++ " "⟩,
               ⟨l.borderFg, l.borderBg, l.borderStyle, "┝"⟩,
               ⟨l.borderFg, l.borderBg, l.borderStyle, fill⟩,
               ⟨l.borderFg, l.borderBg, l.borderStyle, "┅"⟩])

/-- `createBorderLine`: the parts, each wrapped by `ColorAndStyle`, joined
with the empty separator. -/
def createBorderLine (l : SectionLogger) (leftChar text : String) : Option String :=
  (createBorderParts l leftChar text).map (fun ps =>
    String.join (ps.map (fun p => ColorAndStyle p.fg p.bg p.style p.text)))

/-- A printed header line, `fmt.Sprintf("%s %s", prefixBlock, borderLine)`,
as used both by `Render` and by the post-render streaming path. -/
def headerLine (l : SectionLogger) (leftChar text : String) : Option String :=
  (createBorderLine l leftChar text).map (fun b => prefixBlock l ++ " " ++ b)

/-- `renderEntry`: the single-entry line of the streaming path.  Note that it
pads `Section() ++ "/" ++ RenderLabel()` (not the bare label) and carries no
vertical border glyph. -/
def renderEntry (l : SectionLogger) (e : LogEntry) (maxKeyWidth : Nat) : String :=
  prefixBlock l ++ " " ++
    Foreground BrightWhite (padRight maxKeyWidth (e.Section ++ "/" ++ e.RenderLabel)) ++
    " : " ++ e.RenderValue

/-- The backward scan of the streaming path: the appended entry (the last
element) is skipped, and the buffer is searched for another entry whose
`Section()` equals the scan key. -/
def isNewSection (entries : List LogEntry) (key : String) : Bool :=
  !(entries.dropLast.any (fun e => e.Section == key))

/-- The lines printed by the shared post-append tail of `Add` and `Event`:
nothing before the first render; afterwards, a continuation header (when the
backward scan finds no other entry for `key`) followed by the entry's
streaming line.  `Add` passes the upper-cased section as `key`; `Event`
passes its raw `section` argument. -/
def streamOut (l : SectionLogger) (entry : LogEntry) (key : String) :
    Option (List String) :=
  if l.complete then
    if isNewSection l.entries key then
      match headerLine l "┣" key with
      | none => none
      | some h => some [h, renderEntry l entry (calculateMaxWidth l)]
    else some [renderEntry l entry (calculateMaxWidth l)]
  else some []

/-- `Add(section, label, value)` at call instant `now`: upper-case the
section, append a `labelEntry`, set `lastTime := now`, then run the streaming
tail with the upper-cased section as scan key. -/
def Add (l : SectionLogger) (sec lab value : String) (now : Int) :
    SectionLogger × Option (List String) :=
  let entry := LogEntry.label (goToUpper sec) lab value
  let l' := { l with entries := l.entries ++ [entry], lastTime := now }
  (l', streamOut l' entry (goToUpper sec))

/-- `Event(section, value)` at call instant `now`: build an `eventEntry`
whose `prevTime` is the aggregate's `lastTime` before this call, append it,
set `lastTime := now`, then run the streaming tail — with the raw,
un-upper-cased `section` argument as scan key and header text. -/
def Event (l : SectionLogger) (sec value : String) (now : Int) :
    SectionLogger × Option (List String) :=
  let entry := LogEntry.event sec value now l.startTime l.lastTime
  let l' := { l with entries := l.entries ++ [entry], lastTime := now }
  (l', streamOut l' entry sec)

/-- `Clear(section)`: drop every buffered entry whose `Section()` equals the
upper-cased argument.  Nothing is printed and no other field is touched. -/
def Clear (l : SectionLogger) (sec : String) : SectionLogger × List String :=
  ({ l with entries := l.entries.filter (fun e => !(e.Section == goToUpper sec)) }, [])

/-- One step of `Render`'s grouping loop: append the entry to its section's
group, registering the section (in encounter order) if its group was empty. -/
def insertEntry (gs : List (String × List LogEntry)) (e : LogEntry) :
    List (String × List LogEntry) :=
  if gs.any (fun g => g.1 == e.Section) then
    gs.map (fun g => if g.1 == e.Section then (g.1, g.2 ++ [e]) else g)
  else
    gs ++ [(e.Section, [e])]

/-- `Render`'s grouping pass: the `sections` map together with the
`sectionOrder` list, represented as an association list in first-occurrence
key order. -/
def buildGroups (entries : List LogEntry) : List (String × List LogEntry) :=
  entries.foldl insertEntry []

/-- A bulk-render entry line up to (and excluding) the `" : "` separator:
prefix block, vertical border glyph, and the label padded to the shared key
width. -/
def bulkEntryLeft (l : SectionLogger) (maxKeyWidth : Nat) (e : LogEntry) : String :=
  prefixBlock l ++ " " ++
    ColorAndStyle l.borderFg l.borderBg l.borderStyle "┃" ++ " " ++
    Foreground BrightWhite (padRight maxKeyWidth e.RenderLabel)

/-- A bulk-render entry line, `fmt.Sprintf("%s %s %s : %s", ...)`. -/
def bulkEntryLine (l : SectionLogger) (maxKeyWidth : Nat) (e : LogEntry) : String :=
  bulkEntryLeft l maxKeyWidth e ++ " : " ++ e.RenderValue

/-- The lines `Render` emits for one section group: its header line (corner
`┏` for the first group, branch `┣` otherwise) followed by the group's entry
lines. -/
def renderGroup (l : SectionLogger) (maxKeyWidth i : Nat)
    (g : String × List LogEntry) : Option (List String) :=
  (headerLine l (if i = 0 then "┏" else "┣") g.1).map
    (fun h => h :: g.2.map (bulkEntryLine l maxKeyWidth))

/-- `Render`'s main loop over the ordered section groups, `i` the running
group index. -/
def renderBody (l : SectionLogger) (maxKeyWidth : Nat) :
    List (String × List LogEntry) → Nat → Option (List String)
  | [], _ => some []
  | g :: rest, i =>
    match renderGroup l maxKeyWidth i g, renderBody l maxKeyWidth rest (i + 1) with
    | some ls, some more => some (ls ++ more)
    | _, _ => none

/-- The list of lines `Render` returns: the grouped body, then — only when at
least one line was produced — the closing `┗` border with no label. -/
def renderOut (l : SectionLogger) : Option (List String) :=
  match renderBody l (calculateMaxWidth l) (buildGroups l.entries) 0 with
  | none => none
  | some lines =>
    if lines.isEmpty then some lines
    else
      match headerLine l "┗" "" with
      | none => none
      | some f => some (lines ++ [f])

/-- `Render()`: set the has-rendered flag and return the rendered lines.  No
other field changes. -/
def Render (l : SectionLogger) : SectionLogger × Option (List String) :=
  ({ l with complete := true }, renderOut l)

/-- First-occurrence order of a list of section names: the characterization
of `sectionOrder` that the ordering claims are checked against. -/
def firstOccur (ss : List String) : List String :=
  ss.foldl (fun acc s => if s ∈ acc then acc else acc ++ [s]) []

/-! ## Helper lemmas -/

theorem length_mk (cs : List Char) : (String.mk cs).length = cs.length := rfl

theorem padRight_length (w : Nat) (s : String) :
    (padRight w s).length = max w s.length := by
  simp only [padRight, String.length_append, length_mk, List.length_replicate]
  omega

/-- Flipping the `complete` flag does not change any rendering component
(none of them reads the flag). -/
theorem headerLine_complete (l : SectionLogger) (c : Bool) (a b : String) :
    headerLine { l with complete := c } a b = headerLine l a b := rfl

theorem renderGroup_complete (l : SectionLogger) (c : Bool) (m i : Nat)
    (g : String × List LogEntry) :
    renderGroup { l with complete := c } m i g = renderGroup l m i g := rfl

theorem renderBody_complete (l : SectionLogger) (c : Bool) (m : Nat)
    (gs : List (String × List LogEntry)) (i : Nat) :
    renderBody { l with complete := c } m gs i = renderBody l m gs i := by
  induction gs generalizing i with
  | nil => rfl
  | cons g rest ih =>
    simp only [renderBody, renderGroup_complete, ih]

theorem renderOut_complete (l : SectionLogger) (c : Bool) :
    renderOut { l with complete := c } = renderOut l := by
  unfold renderOut
  rw [show calculateMaxWidth { l with complete := c } = calculateMaxWidth l from rfl,
    show buildGroups ({ l with complete := c } : SectionLogger).entries
        = buildGroups l.entries from rfl,
    renderBody_complete, headerLine_complete]

/-! ## Border-line lemmas -/

theorem goRepeat_eq_some (c : Char) (n : Int) (h : ¬ n < 0) :
    goRepeat c n = some (String.mk (List.replicate n.toNat c)) := by
  simp [goRepeat, h]

theorem createBorderParts_empty (l : SectionLogger) (c : String)
    (hw : (5 : Int) ≤ l.width) :
    createBorderParts l c "" = some
      [⟨l.borderFg, l.borderBg, l.borderStyle, c⟩,
       ⟨l.borderFg, l.borderBg, l.borderStyle, "━━━━"⟩,
       ⟨l.borderFg, l.borderBg, l.borderStyle,
         String.mk (List.replicate (l.width - 5).toNat '━')⟩,
       ⟨l.borderFg, l.borderBg, l.borderStyle, "┅"⟩] := by
  unfold createBorderParts
  rw [if_pos rfl, goRepeat_eq_some _ _ (by omega)]
  rfl

theorem createBorderParts_label (l : SectionLogger) (c t : String) (h : t ≠ "")
    (hw : (t.length : Int) + 9 ≤ l.width) :
    createBorderParts l c t = some
      [⟨l.borderFg, l.borderBg, l.borderStyle, c⟩,
       ⟨l.borderFg, l.borderBg, l.borderStyle, "━━━━"⟩,
       ⟨l.borderFg, l.borderBg, l.borderStyle, "┥"⟩,
       ⟨BrightWhite, Black, l.borderStyle ||| Bold, " " ++ t ++ " "⟩,
       ⟨l.borderFg, l.borderBg, l.borderStyle, "┝"⟩,
       ⟨l.borderFg, l.borderBg, l.borderStyle,
         String.mk (List.replicate (l.width - 5 - (t.length + 4)).toNat '━')⟩,
       ⟨l.borderFg, l.borderBg, l.borderStyle, "┅"⟩] := by
  unfold createBorderParts
  rw [if_neg h, goRepeat_eq_some _ _ (by omega)]
  rfl

theorem createBorderLine_isSome (l : SectionLogger) (c t : String)
    (h5 : t = "" → (5 : Int) ≤ l.width)
    (ht : t ≠ "" → (t.length : Int) + 9 ≤ l.width) :
    ∃ b, createBorderLine l c t = some b := by
  by_cases h : t = ""
  · subst h
    exact ⟨_, by rw [createBorderLine, createBorderParts_empty l c (h5 rfl)]; rfl⟩
  · exact ⟨_, by rw [createBorderLine, createBorderParts_label l c t h (ht h)]; rfl⟩

theorem headerLine_isSome (l : SectionLogger) (c t : String)
    (h5 : t = "" → (5 : Int) ≤ l.width)
    (ht : t ≠ "" → (t.length : Int) + 9 ≤ l.width) :
    ∃ b, headerLine l c t = some b := by
  obtain ⟨b, hb⟩ := createBorderLine_isSome l c t h5 ht
  exact ⟨_, by rw [headerLine, hb]; rfl⟩

/-! ## C2 -/

/-- C2 (counterexample): for the default width 80 and the unlabeled closing
border, the border line holds 81 visible glyphs, not 80 — the code sizes the
fill run to cover the corner glyph and the 4-glyph prefix run but not the
trailing cap glyph. -/
theorem border_width_counterexample :
    ((createBorderParts (New "p" 0) "┗" "").map
        (fun ps => (ps.map (fun p => p.text.length)).sum)) = some 81
  ∧ (New "p" 0).width = 80 :=
  ⟨by decide, rfl⟩

/-- C2 (amended): whenever the fill count is non-negative (`width ≥ len(t)+9`
for a non-empty label, `width ≥ 5` for the closing line), the border line is
corner glyph + 4 fill glyphs + (for a non-empty label) the 2-glyph bracket
around the space-padded label + fill run + cap glyph, and its total visible
glyph count is `width + 1`, one more than the configured width. -/
theorem border_glyph_width (l : SectionLogger) (leftChar text : String)
    (hc : leftChar.length = 1)
    (h5 : text = "" → (5 : Int) ≤ l.width)
    (ht : text ≠ "" → (text.length : Int) + 9 ≤ l.width) :
    ∃ ps, createBorderParts l leftChar text = some ps
      ∧ ((ps.map (fun p => (p.text.length : Int))).sum = l.width + 1) := by
  by_cases h : text = ""
  · subst h
    have hw := h5 rfl
    refine ⟨_, createBorderParts_empty l leftChar hw, ?_⟩
    simp only [List.map_cons, List.map_nil, List.sum_cons, List.sum_nil, length_mk,
      List.length_replicate, hc]
    rw [show ("━━━━" : String).length = 4 from rfl,
      show ("┅" : String).length = 1 from rfl]
    have h0 : (0 : Int) ≤ l.width - 5 := by omega
    omega
  · have hw := ht h
    refine ⟨_, createBorderParts_label l leftChar text h hw, ?_⟩
    simp only [List.map_cons, List.map_nil, List.sum_cons, List.sum_nil, length_mk,
      List.length_replicate, String.length_append, hc]
    rw [show ("━━━━" : String).length = 4 from rfl,
      show ("┅" : String).length = 1 from rfl,
      show ("┥" : String).length = 1 from rfl,
      show ("┝" : String).length = 1 from rfl,
      show (" " : String).length = 1 from rfl]
    omega

/-! ## Grouping lemmas -/

theorem insertEntry_eq (gs : List (String × List LogEntry)) (e : LogEntry) :
    insertEntry gs e =
      if e.Section ∈ gs.map Prod.fst then
        gs.map (fun g => if g.1 == e.Section then (g.1, g.2 ++ [e]) else g)
      else gs ++ [(e.Section, [e])] := by
  unfold insertEntry
  by_cases hm : e.Section ∈ gs.map Prod.fst
  · rcases List.mem_map.1 hm with ⟨g, hg, hfst⟩
    have hany : gs.any (fun g => g.1 == e.Section) = true :=
      List.any_eq_true.2 ⟨g, hg, by simp [hfst]⟩
    simp [hany, hm]
  · have hany : gs.any (fun g => g.1 == e.Section) = false := by
      refine List.any_eq_false.2 ?_
      intro g hg
      simp only [beq_iff_eq]
      intro hEq
      exact hm (List.mem_map.2 ⟨g, hg, hEq⟩)
    simp [hany, hm]

theorem updKeys (gs : List (String × List LogEntry)) (e : LogEntry) :
    (gs.map (fun g => if g.1 == e.Section then (g.1, g.2 ++ [e]) else g)).map
      Prod.fst = gs.map Prod.fst := by
  rw [List.map_map]
  refine List.map_congr_left ?_
  intro g _
  by_cases h1 : g.1 = e.Section <;> simp [h1]

theorem insertEntry_keys (gs : List (String × List LogEntry)) (e : LogEntry) :
    (insertEntry gs e).map Prod.fst =
      if e.Section ∈ gs.map Prod.fst then gs.map Prod.fst
      else gs.map Prod.fst ++ [e.Section] := by
  rw [insertEntry_eq]
  by_cases hm : e.Section ∈ gs.map Prod.fst
  · rw [if_pos hm, if_pos hm, updKeys]
  · rw [if_neg hm, if_neg hm]
    simp

theorem foldl_insertEntry_keys (es : List LogEntry)
    (gs : List (String × List LogEntry)) :
    (es.foldl insertEntry gs).map Prod.fst =
      (es.map LogEntry.Section).foldl
        (fun ks s => if s ∈ ks then ks else ks ++ [s]) (gs.map Prod.fst) := by
  induction es generalizing gs with
  | nil => rfl
  | cons e es ih =>
    simp only [List.foldl_cons, List.map_cons]
    rw [ih, insertEntry_keys]

/-- The section-order characterization of the grouping pass: the group keys
are the distinct `Section()` values of the buffer in first-occurrence
order. -/
theorem buildGroups_keys (es : List LogEntry) :
    (buildGroups es).map Prod.fst = firstOccur (es.map LogEntry.Section) :=
  foldl_insertEntry_keys es []

/-- Invariant of the grouping loop after processing the buffer prefix
`pre`: each group holds exactly the entries of its section in buffer order,
every processed entry's section is registered, and every registered section
came from a processed entry. -/
def GroupsInv (pre : List LogEntry) (gs : List (String × List LogEntry)) : Prop :=
  (∀ p ∈ gs, p.2 = pre.filter (fun e => e.Section == p.1))
  ∧ (∀ e ∈ pre, e.Section ∈ gs.map Prod.fst)
  ∧ (∀ s ∈ gs.map Prod.fst, ∃ e ∈ pre, e.Section = s)

theorem groupsInv_step (pre : List LogEntry) (gs : List (String × List LogEntry))
    (e : LogEntry) (h : GroupsInv pre gs) :
    GroupsInv (pre ++ [e]) (insertEntry gs e) := by
  obtain ⟨h1, h2, h3⟩ := h
  rw [insertEntry_eq]
  by_cases hm : e.Section ∈ gs.map Prod.fst
  · rw [if_pos hm]
    refine ⟨?_, ?_, ?_⟩
    · intro p hp
      rcases List.mem_map.1 hp with ⟨g, hg, rfl⟩
      by_cases h1g : (g.1 == e.Section) = true
      · have hEq : g.1 = e.Section := by simpa using h1g
        rw [if_pos h1g, List.filter_append, ← h1 g hg]
        simp [hEq]
      · rw [if_neg h1g, List.filter_append, ← h1 g hg]
        have : (e.Section == g.1) = false := by
          simp only [beq_eq_false_iff_ne, ne_eq]
          intro hEq
          exact h1g (by simp [hEq])
        simp [this]
    · intro x hx
      rw [updKeys]
      rcases List.mem_append.1 hx with hx | hx
      · exact h2 x hx
      · have hx : x = e := by simpa using hx
        rw [hx]
        exact hm
    · intro s hs
      rw [updKeys] at hs
      obtain ⟨x, hx, hxs⟩ := h3 s hs
      exact ⟨x, List.mem_append_left _ hx, hxs⟩
  · rw [if_neg hm]
    refine ⟨?_, ?_, ?_⟩
    · intro p hp
      rcases List.mem_append.1 hp with hp | hp
      · have hne : (e.Section == p.1) = false := by
          simp only [beq_eq_false_iff_ne, ne_eq]
          intro hEq
          exact hm (hEq ▸ List.mem_map_of_mem Prod.fst hp)
        rw [List.filter_append, ← h1 p hp]
        simp [hne]
      · have hp : p = (e.Section, [e]) := by simpa using hp
        subst hp
        rw [List.filter_append]
        have hnil : pre.filter (fun x => x.Section == e.Section) = [] := by
          refine List.filter_eq_nil_iff.2 ?_
          intro x hx
          simp only [beq_iff_eq]
          intro hEq
          exact hm (hEq ▸ h2 x hx)
        simp [hnil]
    · intro x hx
      rw [List.map_append]
      rcases List.mem_append.1 hx with hx | hx
      · exact List.mem_append_left _ (h2 x hx)
      · have hx : x = e := by simpa using hx
        rw [hx]
        simp
    · intro s hs
      rw [List.map_append] at hs
      rcases List.mem_append.1 hs with hs | hs
      · obtain ⟨x, hx, hxs⟩ := h3 s hs
        exact ⟨x, List.mem_append_left _ hx, hxs⟩
      · have hs : s = e.Section := by simpa using hs
        exact ⟨e, List.mem_append_right _ (by simp), hs.symm⟩

theorem groupsInv_foldl (es pre : List LogEntry)
    (gs : List (String × List LogEntry)) (h : GroupsInv pre gs) :
    GroupsInv (pre ++ es) (es.foldl insertEntry gs) := by
  induction es generalizing pre gs with
  | nil => simpa using h
  | cons e es ih =>
    have h' := ih (pre ++ [e]) (insertEntry gs e) (groupsInv_step pre gs e h)
    simpa [List.append_assoc] using h'

theorem buildGroups_inv (es : List LogEntry) : GroupsInv es (buildGroups es) := by
  have h0 : GroupsInv [] [] := ⟨by simp, by simp, by simp⟩
  simpa using groupsInv_foldl es [] [] h0

/-! ## Render-body lemmas -/

theorem renderBody_isSome (l : SectionLogger) (m : Nat)
    (gs : List (String × List LogEntry))
    (h : ∀ g ∈ gs, (g.1 = "" → (5 : Int) ≤ l.width)
        ∧ (g.1 ≠ "" → ((g.1.length : Int) + 9 ≤ l.width))) :
    ∀ i, ∃ lines, renderBody l m gs i = some lines := by
  induction gs with
  | nil => exact fun _ => ⟨[], rfl⟩
  | cons g rest ih =>
    intro i
    obtain ⟨hd, hhd⟩ := headerLine_isSome l (if i = 0 then "┏" else "┣") g.1
      (h g (by simp)).1 (h g (by simp)).2
    obtain ⟨more, hmore⟩ := ih (fun g' hg' => h g' (by simp [hg'])) (i + 1)
    refine ⟨(hd :: g.2.map (bulkEntryLine l m)) ++ more, ?_⟩
    simp [renderBody, renderGroup, hhd, hmore]

theorem renderOut_isSome (l : SectionLogger) (h5 : (5 : Int) ≤ l.width)
    (hs : ∀ e ∈ l.entries, ((e.Section.length : Int) + 9 ≤ l.width)) :
    ∃ lines, renderOut l = some lines := by
  have hkey : ∀ g ∈ buildGroups l.entries,
      (g.1 = "" → (5 : Int) ≤ l.width)
        ∧ (g.1 ≠ "" → ((g.1.length : Int) + 9 ≤ l.width)) := by
    intro g hg
    obtain ⟨e, he, hEq⟩ :=
      (buildGroups_inv l.entries).2.2 g.1 (List.mem_map_of_mem Prod.fst hg)
    exact ⟨fun _ => h5, fun _ => hEq ▸ hs e he⟩
  obtain ⟨body, hbody⟩ :=
    renderBody_isSome l (calculateMaxWidth l) (buildGroups l.entries) hkey 0
  by_cases hb : body.isEmpty
  · exact ⟨body, by unfold renderOut; rw [hbody]; simp [hb]⟩
  · obtain ⟨f, hf⟩ := headerLine_isSome l "┗" "" (fun _ => h5) (fun hne => absurd rfl hne)
    exact ⟨body ++ [f], by unfold renderOut; rw [hbody]; simp [hb, hf]⟩

theorem streamOut_isSome (l : SectionLogger) (entry : LogEntry) (key : String)
    (h5 : (5 : Int) ≤ l.width) (hw : (key.length : Int) + 9 ≤ l.width) :
    ∃ out, streamOut l entry key = some out := by
  unfold streamOut
  by_cases hc : l.complete
  · rw [if_pos hc]
    by_cases hn : isNewSection l.entries key
    · obtain ⟨hd, hhd⟩ := headerLine_isSome l "┣" key (fun _ => h5) (fun _ => hw)
      rw [if_pos hn, hhd]
      exact ⟨_, rfl⟩
    · rw [if_neg hn]
      exact ⟨_, rfl⟩
  · rw [if_neg hc]
    exact ⟨[], rfl⟩

/-! ## C3 -/

/-- C3 (counterexample): `Render` does not always complete gracefully — with
a configured width of 0 (any width below the border arithmetic's minimum) the
fill count of the section border is negative and `strings.Repeat` panics
(modelled as `none`). -/
theorem totality_counterexample :
    (Render (Add (SetWidth (New "p" 0) 0) "A" "k" "v" 1).1).2 = none := by decide

/-- C3 (amended): the operations never fail as long as the configured width
accommodates the border arithmetic: `Add`/`Event`/`Clear` before the first
render and `Clear` at any time never print and never fail; `Render` on an
empty buffer returns an empty sequence (no header, no footer); `Render`
succeeds whenever `width ≥ 5` and `width ≥ len(Section())+9` for every
buffered entry; and after the first render `Add`/`Event` succeed under the
same bounds on their section argument. -/
theorem graceful_degradation :
    (∀ (l : SectionLogger) (sec lab value : String) (now : Int),
        l.complete = false →
        (Add l sec lab value now).2 = some []
          ∧ (Event l sec value now).2 = some [])
  ∧ (∀ (l : SectionLogger) (sec : String), (Clear l sec).2 = [])
  ∧ (∀ l : SectionLogger, l.entries = [] → (Render l).2 = some [])
  ∧ (∀ l : SectionLogger, (5 : Int) ≤ l.width →
        (∀ e ∈ l.entries, ((e.Section.length : Int) + 9 ≤ l.width)) →
        ∃ lines, (Render l).2 = some lines)
  ∧ (∀ (l : SectionLogger) (sec lab value : String) (now : Int),
        (5 : Int) ≤ l.width →
        (((goToUpper sec).length : Int) + 9 ≤ l.width) →
        ∃ out, (Add l sec lab value now).2 = some out)
  ∧ (∀ (l : SectionLogger) (sec value : String) (now : Int),
        (5 : Int) ≤ l.width →
        ((sec.length : Int) + 9 ≤ l.width) →
        ∃ out, (Event l sec value now).2 = some out) := by
  refine ⟨?_, ?_, ?_, ?_, ?_, ?_⟩
  · intro l sec lab value now h
    constructor <;> simp [Add, Event, streamOut, h]
  · intro l sec
    rfl
  · intro l h
    show renderOut l = some []
    unfold renderOut
    rw [show buildGroups l.entries = [] from by rw [h]; rfl]
    rfl
  · intro l h5 hs
    exact renderOut_isSome l h5 hs
  · intro l sec lab value now h5 hw
    exact streamOut_isSome _ _ _ h5 hw
  · intro l sec value now h5 hw
    exact streamOut_isSome _ _ _ h5 hw

/-- C3 witness: the graceful-degradation cases instantiated on concrete
loggers (a fresh logger, one with a buffered entry, and one in streaming
mode). -/
theorem graceful_degradation_witness :
    ((Add (New "p" 0) "A" "k" "v" 1).2 = some []
      ∧ (Event (New "p" 0) "A" "v" 1).2 = some [])
  ∧ (Clear (New "p" 0) "A").2 = []
  ∧ (Render (New "p" 0)).2 = some []
  ∧ (∃ lines, (Render (Add (New "p" 0) "A" "k" "v" 1).1).2 = some lines)
  ∧ (∃ out,
      (Add (Render (Add (New "p" 0) "A" "k" "v" 1).1).1 "B" "k" "v" 2).2 = some out)
  ∧ (∃ out,
      (Event (Render (Add (New "p" 0) "A" "k" "v" 1).1).1 "B" "v" 2).2 = some out) :=
  ⟨graceful_degradation.1 (New "p" 0) "A" "k" "v" 1 rfl,
    graceful_degradation.2.1 (New "p" 0) "A",
    graceful_degradation.2.2.1 (New "p" 0) rfl,
    graceful_degradation.2.2.2.1 _ (by decide) (by decide),
    graceful_degradation.2.2.2.2.1 _ "B" "k" "v" 2 (by decide) (by decide),
    graceful_degradation.2.2.2.2.2 _ "B" "v" 2 (by decide) (by decide)⟩

/-- C2 witness: the amended glyph-count law at the default width and the
unlabeled closing border. -/
theorem border_glyph_width_witness :
    ("┗".length = 1 ∧ ((5 : Int) ≤ (New "p" 0).width))
  ∧ ∃ ps, createBorderParts (New "p" 0) "┗" "" = some ps
      ∧ ((ps.map (fun p => (p.text.length : Int))).sum = (New "p" 0).width + 1) :=
  ⟨⟨rfl, by decide⟩,
    border_glyph_width (New "p" 0) "┗" "" rfl (fun _ => by decide)
      (fun h => absurd rfl h)⟩

/-! ## Key-width lemmas -/

theorem le_foldl_maxWidth (es : List LogEntry) (i : Nat) :
    i ≤ es.foldl (fun m e => max m e.Width) i := by
  induction es generalizing i with
  | nil => exact Nat.le_refl i
  | cons a es ih => exact Nat.le_trans (Nat.le_max_left i a.Width) (ih _)

theorem width_le_foldl_maxWidth (es : List LogEntry) (i : Nat) :
    ∀ e ∈ es, e.Width ≤ es.foldl (fun m e => max m e.Width) i := by
  induction es generalizing i with
  | nil => intro e he; cases he
  | cons a es ih =>
    intro e he
    rcases List.mem_cons.1 he with he | he
    · subst he
      exact Nat.le_trans (Nat.le_max_right i e.Width) (le_foldl_maxWidth es _)
    · exact ih _ e he

theorem foldl_maxWidth_le (es : List LogEntry) (i b : Nat) (hi : i ≤ b)
    (h : ∀ e ∈ es, e.Width ≤ b) :
    es.foldl (fun m e => max m e.Width) i ≤ b := by
  induction es generalizing i with
  | nil => exact hi
  | cons a es ih =>
    exact ih _ (max_le hi (h a (List.mem_cons_self a es)))
      (fun e he => h e (List.mem_cons_of_mem a he))

theorem bulkEntryLeft_length (l : SectionLogger) (m : Nat) (e : LogEntry) :
    (bulkEntryLeft l m e).length =
      (prefixBlock l).length + 1
        + (ColorAndStyle l.borderFg l.borderBg l.borderStyle "┃").length + 1
        + (OneForeground BrightWhite).length + max m e.RenderLabel.length
        + Reset.length := by
  simp only [bulkEntryLeft, Foreground, String.length_append, padRight_length,
    show (" " : String).length = 1 from rfl]
  omega

/-! ## C5 -/

/-- C5 (counterexample): a buffer of two event entries where the second one's
`sinceStart`/`sincePrev` millisecond counts take 7 digits.  Every entry's
`Width()` is 13, so `maxKeyWidth = 13`, but the second entry's rendered label
is 15 characters wide and its `" : "` separator lands 2 columns further
right — column alignment fails. -/
theorem column_alignment_counterexample :
    ¬ (∀ e1 ∈ (Event (Event (New "p" 0) "A" "x" 1000000).1 "A" "y"
          1234567000000).1.entries,
        ∀ e2 ∈ (Event (Event (New "p" 0) "A" "x" 1000000).1 "A" "y"
          1234567000000).1.entries,
        (bulkEntryLeft (Event (Event (New "p" 0) "A" "x" 1000000).1 "A" "y"
            1234567000000).1
          (calculateMaxWidth (Event (Event (New "p" 0) "A" "x" 1000000).1 "A" "y"
            1234567000000).1) e1).length
          = (bulkEntryLeft (Event (Event (New "p" 0) "A" "x" 1000000).1 "A" "y"
              1234567000000).1
            (calculateMaxWidth (Event (Event (New "p" 0) "A" "x" 1000000).1 "A" "y"
              1234567000000).1) e2).length) := by decide

/-- C5 (amended): the shared key width is exactly the global maximum of
`Width()` over all buffered entries, and — provided every entry's rendered
label fits in that width (true for every label entry, and for an event entry
exactly when both millisecond fields fit in 6 characters) — every bulk entry
line places its `" : "` separator at the same character column. -/
theorem column_alignment (l : SectionLogger)
    (h : ∀ e ∈ l.entries, e.RenderLabel.length ≤ calculateMaxWidth l) :
    (∀ e ∈ l.entries, e.Width ≤ calculateMaxWidth l)
  ∧ (∀ b, (∀ e ∈ l.entries, e.Width ≤ b) → calculateMaxWidth l ≤ b)
  ∧ (∀ e1 ∈ l.entries, ∀ e2 ∈ l.entries,
      (bulkEntryLeft l (calculateMaxWidth l) e1).length
        = (bulkEntryLeft l (calculateMaxWidth l) e2).length)
  ∧ (∀ e ∈ l.entries,
      bulkEntryLine l (calculateMaxWidth l) e
        = bulkEntryLeft l (calculateMaxWidth l) e ++ " : " ++ e.RenderValue) := by
  refine ⟨width_le_foldl_maxWidth l.entries 0, ?_, ?_, ?_⟩
  · intro b hb
    exact foldl_maxWidth_le l.entries 0 b (Nat.zero_le b) hb
  · intro e1 h1 e2 h2
    rw [bulkEntryLeft_length, bulkEntryLeft_length,
      Nat.max_eq_left (h e1 h1), Nat.max_eq_left (h e2 h2)]
  · intro e _
    rfl

/-- C5 witness: alignment on a concrete two-entry buffer (an event entry and
a longer label entry). -/
theorem column_alignment_witness :
    (∀ e ∈ (Add (Event (New "p" 0) "A" "x" 1000000).1 "B" "klmnopqrstuvwxyz" "v"
        2000000).1.entries,
      e.RenderLabel.length ≤ calculateMaxWidth
        (Add (Event (New "p" 0) "A" "x" 1000000).1 "B" "klmnopqrstuvwxyz" "v"
          2000000).1)
  ∧ (∀ e1 ∈ (Add (Event (New "p" 0) "A" "x" 1000000).1 "B" "klmnopqrstuvwxyz" "v"
        2000000).1.entries,
      ∀ e2 ∈ (Add (Event (New "p" 0) "A" "x" 1000000).1 "B" "klmnopqrstuvwxyz" "v"
        2000000).1.entries,
      (bulkEntryLeft (Add (Event (New "p" 0) "A" "x" 1000000).1 "B"
          "klmnopqrstuvwxyz" "v" 2000000).1
        (calculateMaxWidth (Add (Event (New "p" 0) "A" "x" 1000000).1 "B"
          "klmnopqrstuvwxyz" "v" 2000000).1) e1).length
        = (bulkEntryLeft (Add (Event (New "p" 0) "A" "x" 1000000).1 "B"
            "klmnopqrstuvwxyz" "v" 2000000).1
          (calculateMaxWidth (Add (Event (New "p" 0) "A" "x" 1000000).1 "B"
            "klmnopqrstuvwxyz" "v" 2000000).1) e2).length) :=
  ⟨by decide,
    (column_alignment _ (by decide)).2.2.1⟩

/-! ## C4 -/

theorem renderBody_shape (l : SectionLogger) (m : Nat)
    (gs : List (String × List LogEntry)) :
    ∀ (i : Nat) (lines : List String), renderBody l m gs i = some lines →
      ∃ bodies, List.Forall₂
          (fun (g : String × List LogEntry) b =>
            ∃ hd, b = hd :: g.2.map (bulkEntryLine l m)) gs bodies
        ∧ lines = bodies.flatten := by
  induction gs with
  | nil =>
    intro i lines hl
    cases hl
    exact ⟨[], List.Forall₂.nil, rfl⟩
  | cons g rest ih =>
    intro i lines hl
    unfold renderBody at hl
    cases hg : renderGroup l m i g with
    | none => rw [hg] at hl; cases hl
    | some ls =>
      cases hr : renderBody l m rest (i + 1) with
      | none => rw [hg, hr] at hl; cases hl
      | some more =>
        rw [hg, hr] at hl
        obtain ⟨bodies, hf, hj⟩ := ih (i + 1) more hr
        obtain ⟨hd, hls⟩ : ∃ hd, ls = hd :: g.2.map (bulkEntryLine l m) := by
          unfold renderGroup at hg
          cases hh : headerLine l (if i = 0 then "┏" else "┣") g.1 with
          | none => rw [hh] at hg; cases hg
          | some hd => rw [hh] at hg; cases hg; exact ⟨hd, rfl⟩
        injection hl with hl
        exact ⟨ls :: bodies, List.Forall₂.cons ⟨hd, hls⟩ hf,
          by rw [← hl, hj]; rfl⟩

/-- C4: whenever `Render` completes, its output is — group by group — a
header line followed by the group's entry lines, possibly closed by a footer;
the groups are keyed by the distinct `Section()` values in first-occurrence
order, and each group holds exactly its section's entries in buffer
(append) order. -/
theorem render_section_order (l : SectionLogger) (h : (Render l).2 ≠ none) :
    (buildGroups l.entries).map Prod.fst = firstOccur (l.entries.map LogEntry.Section)
  ∧ (∀ p ∈ buildGroups l.entries,
      p.2 = l.entries.filter (fun e => e.Section == p.1))
  ∧ (∃ lines bodies ftr,
      (Render l).2 = some lines
      ∧ List.Forall₂
          (fun (g : String × List LogEntry) b =>
            ∃ hd, b = hd :: g.2.map (bulkEntryLine l (calculateMaxWidth l)))
          (buildGroups l.entries) bodies
      ∧ lines = bodies.flatten ++ ftr) := by
  refine ⟨buildGroups_keys l.entries, (buildGroups_inv l.entries).1, ?_⟩
  cases hb : renderBody l (calculateMaxWidth l) (buildGroups l.entries) 0 with
  | none =>
    exfalso
    apply h
    show renderOut l = none
    unfold renderOut
    rw [hb]
  | some body =>
    obtain ⟨bodies, hf, hj⟩ := renderBody_shape l _ _ 0 body hb
    by_cases he : body.isEmpty
    · refine ⟨body, bodies, [], ?_, hf, by rw [hj, List.append_nil]⟩
      show renderOut l = some body
      unfold renderOut
      rw [hb]
      simp [he]
    · cases hfoot : headerLine l "┗" "" with
      | none =>
        exfalso
        apply h
        show renderOut l = none
        unfold renderOut
        rw [hb]
        simp [he, hfoot]
      | some f =>
        refine ⟨body ++ [f], bodies, [f], ?_, hf, by rw [hj]⟩
        show renderOut l = some (body ++ [f])
        unfold renderOut
        rw [hb]
        simp [he, hfoot]

/-- C4 witness: a buffer with entries of sections A, B, A interleaved. -/
theorem render_section_order_witness :
    ((Render (Add (Add (Add (New "p" 0) "A" "k1" "v1" 1).1 "B" "k2" "v2" 2).1
        "A" "k3" "v3" 3).1).2 ≠ none)
  ∧ ((buildGroups (Add (Add (Add (New "p" 0) "A" "k1" "v1" 1).1 "B" "k2" "v2" 2).1
        "A" "k3" "v3" 3).1.entries).map Prod.fst
      = firstOccur ((Add (Add (Add (New "p" 0) "A" "k1" "v1" 1).1 "B" "k2" "v2" 2).1
        "A" "k3" "v3" 3).1.entries.map LogEntry.Section)
  ∧ (∀ p ∈ buildGroups (Add (Add (Add (New "p" 0) "A" "k1" "v1" 1).1
        "B" "k2" "v2" 2).1 "A" "k3" "v3" 3).1.entries,
      p.2 = (Add (Add (Add (New "p" 0) "A" "k1" "v1" 1).1 "B" "k2" "v2" 2).1
        "A" "k3" "v3" 3).1.entries.filter (fun e => e.Section == p.1))
  ∧ (∃ lines bodies ftr,
      (Render (Add (Add (Add (New "p" 0) "A" "k1" "v1" 1).1 "B" "k2" "v2" 2).1
        "A" "k3" "v3" 3).1).2 = some lines
      ∧ List.Forall₂
          (fun (g : String × List LogEntry) b =>
            ∃ hd, b = hd :: g.2.map (bulkEntryLine
              (Add (Add (Add (New "p" 0) "A" "k1" "v1" 1).1 "B" "k2" "v2" 2).1
                "A" "k3" "v3" 3).1
              (calculateMaxWidth (Add (Add (Add (New "p" 0) "A" "k1" "v1" 1).1
                "B" "k2" "v2" 2).1 "A" "k3" "v3" 3).1)))
          (buildGroups (Add (Add (Add (New "p" 0) "A" "k1" "v1" 1).1
            "B" "k2" "v2" 2).1 "A" "k3" "v3" 3).1.entries) bodies
      ∧ lines = bodies.flatten ++ ftr)) :=
  ⟨by decide,
    render_section_order (Add (Add (Add (New "p" 0) "A" "k1" "v1" 1).1
      "B" "k2" "v2" 2).1 "A" "k3" "v3" 3).1 (by decide)⟩

/-! ## C1 -/

/-- C1 (counterexample): stream a late entry for section "A" into a rendered
logger and compare with the header+entry lines of a subsequent full `Render`
(its output with the closing border dropped).  They differ: the streaming
header uses the branch corner `┣` where the bulk render uses `┏`, and the
streaming entry line pads `Section()+"/"+RenderLabel()` with no vertical
border glyph where the bulk line pads bare `RenderLabel()` after a `┃`. -/
theorem streaming_equivalence_counterexample :
    (Add (Render (New "p" 0)).1 "A" "k" "v" 5).2
      ≠ ((Render (Add (Render (New "p" 0)).1 "A" "k" "v" 5).1).2.map
          (fun ls => ls.dropLast)) := by decide

/-- C1 (amended): for a late `Add` into a new section (with the border
fitting the width), the streaming path prints exactly a continuation header
followed by the entry's streaming line; the header line coincides with the
header a subsequent `Render` emits for that section at any non-first
position, but the entry line pads `Section() ++ "/" ++ RenderLabel()` to the
global key width and carries no vertical border glyph — unlike the bulk
entry line. -/
theorem streaming_header_equivalence (l : SectionLogger)
    (sec lab value : String) (now : Int)
    (hc : l.complete = true)
    (hnew : isNewSection (l.entries ++ [LogEntry.label (goToUpper sec) lab value])
        (goToUpper sec) = true)
    (h5 : (5 : Int) ≤ l.width)
    (hw : ((goToUpper sec).length : Int) + 9 ≤ l.width) :
    ∃ hd,
      (Add l sec lab value now).2
        = some [hd, renderEntry (Add l sec lab value now).1
            (LogEntry.label (goToUpper sec) lab value)
            (calculateMaxWidth (Add l sec lab value now).1)]
    ∧ (∀ (m i : Nat) (ents : List LogEntry) (ls : List String), i ≠ 0 →
        renderGroup (Add l sec lab value now).1 m i (goToUpper sec, ents)
            = some ls →
        ls.head? = some hd)
    ∧ renderEntry (Add l sec lab value now).1
          (LogEntry.label (goToUpper sec) lab value)
          (calculateMaxWidth (Add l sec lab value now).1)
        = prefixBlock l ++ " "
            ++ Foreground BrightWhite
                (padRight (calculateMaxWidth (Add l sec lab value now).1)
                  (goToUpper sec ++ "/" ++ lab))
            ++ " : " ++ value := by
  obtain ⟨hd, hhd⟩ := headerLine_isSome (Add l sec lab value now).1 "┣"
    (goToUpper sec) (fun _ => h5) (fun _ => hw)
  refine ⟨hd, ?_, ?_, rfl⟩
  · have hc' : (Add l sec lab value now).1.complete = true := hc
    have hn' : isNewSection (Add l sec lab value now).1.entries (goToUpper sec)
        = true := hnew
    show streamOut (Add l sec lab value now).1
        (LogEntry.label (goToUpper sec) lab value) (goToUpper sec) = _
    unfold streamOut
    rw [if_pos hc', if_pos hn', hhd]
  · intro m i ents ls hi hr
    unfold renderGroup at hr
    rw [if_neg hi] at hr
    rw [show ((goToUpper sec, ents) : String × List LogEntry).1 = goToUpper sec
      from rfl] at hr
    rw [hhd] at hr
    injection hr with hr
    rw [← hr]
    rfl

/-- C1 witness: the amended streaming/bulk relationship at a concrete
rendered-empty logger receiving a late "A" entry. -/
theorem streaming_header_equivalence_witness :
    ((Render (New "p" 0)).1.complete = true
      ∧ isNewSection ((Render (New "p" 0)).1.entries
          ++ [LogEntry.label (goToUpper "A") "k" "v"]) (goToUpper "A") = true
      ∧ (5 : Int) ≤ (Render (New "p" 0)).1.width
      ∧ ((goToUpper "A").length : Int) + 9 ≤ (Render (New "p" 0)).1.width)
  ∧ ∃ hd,
      (Add (Render (New "p" 0)).1 "A" "k" "v" 5).2
        = some [hd, renderEntry (Add (Render (New "p" 0)).1 "A" "k" "v" 5).1
            (LogEntry.label (goToUpper "A") "k" "v")
            (calculateMaxWidth (Add (Render (New "p" 0)).1 "A" "k" "v" 5).1)]
    ∧ (∀ (m i : Nat) (ents : List LogEntry) (ls : List String), i ≠ 0 →
        renderGroup (Add (Render (New "p" 0)).1 "A" "k" "v" 5).1 m i
            (goToUpper "A", ents) = some ls →
        ls.head? = some hd)
    ∧ renderEntry (Add (Render (New "p" 0)).1 "A" "k" "v" 5).1
          (LogEntry.label (goToUpper "A") "k" "v")
          (calculateMaxWidth (Add (Render (New "p" 0)).1 "A" "k" "v" 5).1)
        = prefixBlock (Render (New "p" 0)).1 ++ " "
            ++ Foreground BrightWhite
                (padRight (calculateMaxWidth (Add (Render (New "p" 0)).1
                    "A" "k" "v" 5).1)
                  (goToUpper "A" ++ "/" ++ "k"))
            ++ " : " ++ "v" :=
  ⟨⟨rfl, by decide, by decide, by decide⟩,
    streaming_header_equivalence (Render (New "p" 0)).1 "A" "k" "v" 5 rfl
      (by decide) (by decide) (by decide)⟩

/-! ## C6 -/

set_option maxRecDepth 4000 in
/-- C6: the `Section()` read-back is upper-cased for both entry variants
(last two conjuncts), but the post-render streaming paths of `Add` and
`Event` do not behave identically: after rendering a buffer whose only
section is "A" (inserted via `Add("a", ...)`), a late `Event("a", x)` scans
the buffer with the *raw* argument `"a"`, misses the existing "A" entries,
and prints 2 lines — a spurious continuation header titled with the
lower-case `"a"` — while a late `Add("a", ...)` upper-cases first, finds the
section, and prints only the entry line. -/
theorem event_raw_section_bug :
    ((Event (Render (Add (New "p" 0) "a" "k" "v" 1).1).1 "a" "x" 2).2.map
        List.length = some 2)
  ∧ ((Add (Render (Add (New "p" 0) "a" "k" "v" 1).1).1 "a" "k2" "v2" 2).2.map
        List.length = some 1)
  ∧ (((Event (Render (Add (New "p" 0) "a" "k" "v" 1).1).1 "a" "x" 2).2.getD
        []).head?
      = headerLine (Event (Render (Add (New "p" 0) "a" "k" "v" 1).1).1
          "a" "x" 2).1 "┣" "a")
  ∧ LogEntry.Section (LogEntry.event "a" "x" 2 0 1) = "A"
  ∧ LogEntry.Section (LogEntry.label (goToUpper "a") "k" "v") = "A" :=
  ⟨by decide, by decide, by decide, by decide, by decide⟩

/-! ## C7, C8, C9, C10 -/

/-- C7 (amended): `Add` and `Event` update `lastTime` to the call instant;
`Clear` leaves `lastTime` (and `startTime`) unchanged. -/
theorem mutation_lastTime (l : SectionLogger) (sec lab value : String) (now : Int) :
    (Add l sec lab value now).1.lastTime = now
  ∧ (Event l sec value now).1.lastTime = now
  ∧ (Clear l sec).1.lastTime = l.lastTime
  ∧ (Clear l sec).1.startTime = l.startTime :=
  ⟨rfl, rfl, rfl, rfl⟩

/-- C7 (counterexample): `Clear` reads no clock at all — its resulting state
is a pure function of the pre-state.  After an `Add` at instant 3, a `Clear`
performed at any strictly later instant still leaves `lastTime = 3`, so
`Clear` does not update `lastTime` to the current time. -/
theorem clear_lastTime_counterexample :
    (Clear (Add (New "p" 0) "A" "k" "v" 3).1 "A").1.lastTime = 3 := by decide

/-- C8: `Clear(section)` removes exactly the entries whose `Section()` equals
the upper-cased argument; the remaining entries are the order-preserving
sublist of the others; `rendered`, `startTime` and `lastTime` are untouched;
and nothing is printed. -/
theorem clear_scoping (l : SectionLogger) (sec : String) :
    (Clear l sec).1.entries
        = l.entries.filter (fun e => !(e.Section == goToUpper sec))
  ∧ (∀ e ∈ (Clear l sec).1.entries, e.Section ≠ goToUpper sec)
  ∧ (∀ e ∈ l.entries, e.Section ≠ goToUpper sec → e ∈ (Clear l sec).1.entries)
  ∧ (Clear l sec).1.entries.Sublist l.entries
  ∧ (Clear l sec).1.complete = l.complete
  ∧ (Clear l sec).1.startTime = l.startTime
  ∧ (Clear l sec).1.lastTime = l.lastTime
  ∧ (Clear l sec).2 = [] := by
  refine ⟨rfl, ?_, ?_, ?_, rfl, rfl, rfl, rfl⟩
  · intro e he
    have h := List.mem_filter.1 he
    simpa using h.2
  · intro e he hne
    exact List.mem_filter.2 ⟨he, by simpa using hne⟩
  · exact List.filter_sublist _

/-- C8 witness: `Clear("b")` on a concrete three-entry, two-section buffer. -/
theorem clear_scoping_witness :
    (Clear (Add (Add (Add (New "p" 0) "A" "k1" "v1" 1).1 "B" "k2" "v2" 2).1
        "A" "k3" "v3" 3).1 "b").1.entries
      = (Add (Add (Add (New "p" 0) "A" "k1" "v1" 1).1 "B" "k2" "v2" 2).1
          "A" "k3" "v3" 3).1.entries.filter
          (fun e => !(e.Section == goToUpper "b"))
  ∧ (∀ e ∈ (Clear (Add (Add (Add (New "p" 0) "A" "k1" "v1" 1).1 "B" "k2" "v2"
        2).1 "A" "k3" "v3" 3).1 "b").1.entries, e.Section ≠ goToUpper "b") :=
  ⟨(clear_scoping (Add (Add (Add (New "p" 0) "A" "k1" "v1" 1).1 "B" "k2" "v2"
      2).1 "A" "k3" "v3" 3).1 "b").1,
    (clear_scoping (Add (Add (Add (New "p" 0) "A" "k1" "v1" 1).1 "B" "k2" "v2"
      2).1 "A" "k3" "v3" 3).1 "b").2.1⟩

/-- C9: with no intervening mutation, a second `Render` returns exactly the
lines of the first one (the output depends only on the buffer, the width and
the color configuration, none of which `Render` changes; only the `complete`
flag flips, and the output does not read it). -/
theorem render_idempotent (l : SectionLogger) :
    (Render (Render l).1).2 = (Render l).2
  ∧ (Render (Render l).1).1 = (Render l).1 :=
  ⟨renderOut_complete l true, rfl⟩

/-- C10: `Render` mutates nothing but the has-rendered flag: the resulting
state is the pre-state with `complete := true` — in particular the flag is
set even when the buffer is empty and no lines are returned, so any later
`Add`/`Event` takes the streaming path. -/
theorem render_frame (l : SectionLogger) :
    (Render l).1 = { l with complete := true }
  ∧ (Render l).1.complete = true
  ∧ (Render l).1.entries = l.entries
  ∧ (Render l).1.pfx = l.pfx
  ∧ (Render l).1.startTime = l.startTime
  ∧ (Render l).1.lastTime = l.lastTime
  ∧ (Render l).1.width = l.width
  ∧ (Render l).1.borderFg = l.borderFg
  ∧ (Render l).1.borderBg = l.borderBg
  ∧ (Render l).1.borderStyle = l.borderStyle
  ∧ (Render l).1.prefixFg = l.prefixFg
  ∧ (Render l).1.prefixBg = l.prefixBg
  ∧ (Render l).1.prefixStyle = l.prefixStyle :=
  ⟨rfl, rfl, rfl, rfl, rfl, rfl, rfl, rfl, rfl, rfl, rfl, rfl, rfl⟩

end Gologger
